import Mathlib

/-
  Verification development for the DataStep data-quality pipeline.

  Shallow embedding of the two core engines:
  * `src/outlier_detector.py` — per-column outlier detection (IQR on numerics,
    IQR-on-timestamp for dates, frequency rarity for categoricals);
  * `src/data_comparison.py` — primary-key based set reconciliation between a
    current and a previous table.

  Cell values are modelled by the inductive `Value`; a polars column is a
  `List Value` in the table's natural row order (`Value.vNull` models a null
  cell).  Fallible Python code (raised exceptions) is modelled with
  `Option`/`Except`.  Machine floats are modelled by `ℚ`: every number the
  engines manipulate here is produced by exact arithmetic on input values.
-/

attribute [local semireducible] Rat.mul Rat.add Rat.sub Rat.inv Rat.ofScientific

deriving instance DecidableEq for Except

namespace DataStep

/-- A cell value of a polars column.  `vDate d` is a `pl.Date`, physically the
number of days since the Unix epoch; `vDatetime us` is a `pl.Datetime`
(microsecond unit), physically microseconds since the Unix epoch. -/
inductive Value where
  | vInt : ℤ → Value
  | vFloat : ℚ → Value
  | vDate : ℤ → Value
  | vDatetime : ℤ → Value
  | vStr : String → Value
  | vNull : Value
deriving DecidableEq, Repr

/-- Column classification, `ColumnType` of `outlier_detector.py`. -/
inductive ColumnType where
  | numeric
  | categorical
  | date
deriving DecidableEq, Repr

/-- The numeric content of a cell: `isinstance(value, (int, float))` values are
numbers, anything else (nulls included) has none. -/
def numVal : Value → Option ℚ
  | Value.vInt n => some (n : ℚ)
  | Value.vFloat q => some q
  | _ => none

/-- The non-null numeric values of a column (polars aggregations skip nulls). -/
def numsOf (col : List Value) : List ℚ := col.filterMap numVal

/-- Insert into a sorted list (ascending). -/
def insertSorted (x : ℚ) : List ℚ → List ℚ
  | [] => [x]
  | y :: ys => if x ≤ y then x :: y :: ys else y :: insertSorted x ys

/-- Ascending sort of the column values, as polars sorts before taking a
quantile. -/
def sortAsc (xs : List ℚ) : List ℚ := xs.foldr insertSorted []

/-- Round half up, the behaviour of `f64::round` on the non-negative indices
that arise in quantile interpolation. -/
def roundNearest (x : ℚ) : ℤ := ⌊x + 1/2⌋

/-- Embeds `Expr.quantile(q)` with polars' default interpolation `nearest`: the sorted
non-null value at index `round(q·(n−1))`.  Returns `none` when `q` is outside
`[0, 1]` (polars raises) or when there is no non-null value (polars yields
null, which the caller's `float(...)` then chokes on). -/
def quantileNearest (xs : List ℚ) (q : ℚ) : Option ℚ :=
  if q < 0 ∨ 1 < q then none
  else
    match sortAsc xs with
    | [] => none
    | s@(_ :: _) => some (s.getD (roundNearest (q * ((s.length : ℚ) - 1))).toNat 0)

/-- Embeds `OutlierDetector._detect_numeric_outliers`.  The four quantiles of the one
`select` are all evaluated (upper/lower percentile bounds are computed from
`percentile_threshold` but then unused); then rows strictly outside the IQR
bounds are kept, with method `"IQR"` and a direction column.  `none` models the
raised exception when a quantile is invalid or the column has no non-null
numeric value. -/
def detectNumericOutliers (pt : ℚ) (col : List Value) :
    Option (List (Value × String × String)) :=
  match quantileNearest (numsOf col) (1 - pt / 100),
        quantileNearest (numsOf col) (pt / 100),
        quantileNearest (numsOf col) (3/4),
        quantileNearest (numsOf col) (1/4) with
  | some _, some _, some q3, some q1 =>
    let iqr := q3 - q1
    let iqrLower := q1 - 1.5 * iqr
    let iqrUpper := q3 + 1.5 * iqr
    some (col.filterMap (fun v =>
      match numVal v with
      | some x =>
        if x > iqrUpper ∨ x < iqrLower then
          some (v, "IQR", if x > iqrUpper then "above" else "below")
        else none
      | none => none))
  | _, _, _, _ => none

/-- Embeds `.cast(pl.Int64)` on a date/datetime column: a `pl.Date` yields its day
count, a `pl.Datetime` its microsecond count, null stays null. -/
def dateCastInt64 : Value → Value
  | Value.vDate d => Value.vInt d
  | Value.vDatetime us => Value.vInt us
  | Value.vNull => Value.vNull
  | v => v

/-- Embeds `pl.from_epoch(column)` with its default `time_unit="s"`: the integer is
interpreted as seconds since the epoch and becomes a `pl.Datetime` (µs). -/
def fromEpochDefault : Value → Value
  | Value.vInt n => Value.vDatetime (n * 1000000)
  | v => v

/-- Embeds `OutlierDetector._detect_date_outliers`: cast the column to `Int64`, run
the numeric IQR detection on the timestamps, then map the flagged timestamps
through `pl.from_epoch` (default seconds unit). -/
def detectDateOutliers (pt : ℚ) (col : List Value) :
    Option (List (Value × String × String)) :=
  match detectNumericOutliers pt (col.map dateCastInt64) with
  | some outs => some (outs.map (fun r => (fromEpochDefault r.1, r.2.1, r.2.2)))
  | none => none

/-- Embeds `OutlierDetector._detect_categorical_outliers`: group the column by
distinct value (nulls form a group of their own), attach
`count · 100 / total_row_count` — the denominator is `len(df_collected)`, the
number of rows nulls included — and keep the groups whose percentage is
strictly below the rare-category threshold. -/
def detectCategoricalOutliers (thr : ℚ) (col : List Value) :
    List (Value × ℕ × ℚ) :=
  col.dedup.filterMap (fun v =>
    let c := col.count v
    let pct := (c : ℚ) * 100 / (col.length : ℚ)
    if pct < thr then some (v, c, pct) else none)

/-- The native kind of one sampled cell, as the `isinstance` chain of
`detect_outliers` sees it: `int`/`float` → numeric, `pl.Date`/`pl.Datetime` →
date, anything else (strings, nulls, …) → categorical. -/
def valueKind : Value → ColumnType
  | Value.vInt _ => ColumnType.numeric
  | Value.vFloat _ => ColumnType.numeric
  | Value.vDate _ => ColumnType.date
  | Value.vDatetime _ => ColumnType.date
  | _ => ColumnType.categorical

/-- The classification `detect_outliers` actually uses: it inspects
`sample_data[0, 0]`, the first cell of the column in natural order (null or
not); a zero-row column gets no classification (the loop `continue`s). -/
def classifyFirstValue (col : List Value) : Option ColumnType :=
  match col with
  | [] => none
  | v :: _ => some (valueKind v)

/-- The first non-null value of a column, scan order = natural order. -/
def firstNonNull (col : List Value) : Option Value :=
  col.find? (fun v => v ≠ Value.vNull)

/-- Embeds `OutlierDetector._determine_column_type` (defined in the source but not
called by `detect_outliers`): classify by the first non-null value, raising
`ValueError` when every value is null. -/
def determineColumnType (name : String) (col : List Value) :
    Except String ColumnType :=
  match firstNonNull col with
  | none => Except.error s!"Column {name} is empty"
  | some v => Except.ok (valueKind v)

/-- One row of a per-column outlier table: numeric/date rows carry the value,
the method `"IQR"` and a direction; categorical rows carry the rare value, its
count and its stored percentage. -/
inductive OutRow where
  | num : Value → String → String → OutRow
  | cat : Value → ℕ → ℚ → OutRow
deriving DecidableEq, Repr

/-- The body of the per-column `try` block of `detect_outliers`: skip a
zero-row column, otherwise classify by the first cell and dispatch;
`Except.error` models a raised (and later caught) exception. -/
def processColumn (pt rct : ℚ) (col : List Value) : Except String (List OutRow) :=
  match col with
  | [] => Except.ok []
  | v :: _ =>
    match valueKind v with
    | ColumnType.numeric =>
      match detectNumericOutliers pt col with
      | some l => Except.ok (l.map (fun r => OutRow.num r.1 r.2.1 r.2.2))
      | none => Except.error "numeric outlier detection raised"
    | ColumnType.date =>
      match detectDateOutliers pt col with
      | some l => Except.ok (l.map (fun r => OutRow.num r.1 r.2.1 r.2.2))
      | none => Except.error "date outlier detection raised"
    | ColumnType.categorical =>
      Except.ok ((detectCategoricalOutliers rct col).map
        (fun g => OutRow.cat g.1 g.2.1 g.2.2))

/-- Embeds `OutlierDetector.detect_outliers`: iterate the schema's columns; a raised
per-column exception is caught and the column contributes nothing; a column
with an empty outlier table is likewise omitted from the result mapping. -/
def detectOutliers (pt rct : ℚ) (t : List (String × List Value)) :
    List (String × List OutRow) :=
  t.filterMap (fun c =>
    match processColumn pt rct c.2 with
    | Except.error _ => none
    | Except.ok [] => none
    | Except.ok outs => some (c.1, outs))

/-! ### Comparison engine (`src/data_comparison.py`) -/

/-- A row-oriented table: a schema (column names, in order) and rows, each row
holding one `Value` per schema column. -/
structure RTable where
  schema : List String
  rows : List (List Value)
deriving DecidableEq, Repr

/-- The primary-key tuple of a row: the row's values at the key columns,
looked up by column name through the schema. -/
def rowKey (pks : List String) (schema : List String) (row : List Value) :
    List Value :=
  pks.map (fun k => row.getD (schema.indexOf k) Value.vNull)

/-- The key columns absent from a table's schema. -/
def missingKeys (pks : List String) (t : RTable) : List String :=
  pks.filter (fun k => decide (k ∉ t.schema))

/-- The list of key tuples of a table, one per row. -/
def keysOf (pks : List String) (t : RTable) : List (List Value) :=
  t.rows.map (rowKey pks t.schema)

/-- Some key tuple occurs in more than one row (the `group_by` count check of
`validate_primary_keys`). -/
def hasDuplicateKeys (pks : List String) (t : RTable) : Bool :=
  (keysOf pks t).any
    (fun k => 1 < (keysOf pks t).countP (fun k2 => decide (k2 = k)))

/-- The `ValueError` message for absent key columns. -/
def missingKeysMsg (missing : List String) (label : String) : String :=
  s!"Primary keys {missing} not found in {label} year dataset"

/-- The `ValueError` message for duplicated key tuples. -/
def duplicateKeysMsg (label : String) : String :=
  s!"Duplicate primary keys found in {label} year dataset"

/-- Embeds `DataComparison.validate_primary_keys`: raise listing every absent key
column if one is missing from the schema, else raise naming the dataset label
if some key tuple repeats, else return `True`. -/
def validatePrimaryKeys (pks : List String) (t : RTable) (label : String) :
    Except String Bool :=
  if missingKeys pks t ≠ [] then
    Except.error (missingKeysMsg (missingKeys pks t) label)
  else if hasDuplicateKeys pks t then
    Except.error (duplicateKeysMsg label)
  else
    Except.ok true

/-- Python's `/` on numbers: raises `ZeroDivisionError` on a zero denominator,
otherwise true division. -/
def pyDiv (a b : ℚ) : Except String ℚ :=
  if b = 0 then Except.error "ZeroDivisionError: division by zero"
  else Except.ok (a / b)

/-- The parts of the dictionary returned by `compare_datasets` that the claims
are about: the two anti-join partitions and the comparison statistics.  (The
`joined_data` outer-join view is also returned by the source but no claim
touches it, so it is not modelled.) -/
structure CompareResult where
  tableNew : List (List Value)
  tableLapsed : List (List Value)
  totalCurrent : ℕ
  totalPrevious : ℕ
  newCount : ℕ
  lapsedCount : ℕ
  retentionRate : ℚ
deriving DecidableEq, Repr

/-- The `table_new` of `compare_datasets`: the anti-join of the current rows
against the distinct (`.unique()`) key tuples of the previous table — the rows
whose key tuple has no match there. -/
def tableNewOf (pks : List String) (cur prev : RTable) : List (List Value) :=
  cur.rows.filter
    (fun r => decide (rowKey pks cur.schema r ∉ (keysOf pks prev).dedup))

/-- The `table_lapsed` of `compare_datasets`: the anti-join of the previous
rows against the distinct key tuples of the current table. -/
def tableLapsedOf (pks : List String) (cur prev : RTable) : List (List Value) :=
  prev.rows.filter
    (fun r => decide (rowKey pks prev.schema r ∉ (keysOf pks cur).dedup))

/-- Embeds `DataComparison.compare_datasets`: validate both tables' primary keys
(fatal on failure), take the distinct key tuples of each side, anti-join each
table against the other side's keys, count, and compute the retention rate
`(total_current − new_count) / total_previous · 100` with Python division. -/
def compareDatasets (pks : List String) (cur prev : RTable) :
    Except String CompareResult :=
  match validatePrimaryKeys pks cur "current" with
  | Except.error e => Except.error e
  | Except.ok _ =>
    match validatePrimaryKeys pks prev "previous" with
    | Except.error e => Except.error e
    | Except.ok _ =>
      match pyDiv ((cur.rows.length : ℚ) - ((tableNewOf pks cur prev).length : ℚ))
          (prev.rows.length : ℚ) with
      | Except.error e => Except.error e
      | Except.ok ratio =>
        Except.ok
          { tableNew := tableNewOf pks cur prev
            tableLapsed := tableLapsedOf pks cur prev
            totalCurrent := cur.rows.length
            totalPrevious := prev.rows.length
            newCount := (tableNewOf pks cur prev).length
            lapsedCount := (tableLapsedOf pks cur prev).length
            retentionRate := ratio * 100 }

/-! ### Spec-side definitions

Used only to state claims whose wording differs from the source, so that the
source behaviour can be compared against the spec's words. -/

/-- The frequency percentage as the spec words it for categorical outliers:
`100 × count / total number of non-null rows` of the column. -/
def specNonNullPercentage (col : List Value) (v : Value) : ℚ :=
  (col.count v : ℚ) * 100 / ((col.filter (fun u => u ≠ Value.vNull)).length : ℚ)

/-- The microsecond-epoch instant denoted by a date-like cell: a `pl.Date` is
a whole number of days, a `pl.Datetime` is already in microseconds. -/
def valueInstantUs : Value → Option ℤ
  | Value.vDate d => some (d * 86400000000)
  | Value.vDatetime us => some us
  | _ => none

/-! ### Concrete example data -/

/-- A numeric column whose value 100 lies far above the IQR upper bound. -/
def exNumCol : List Value :=
  [Value.vInt 1, Value.vInt 2, Value.vInt 3, Value.vInt 100]

/-- A date column whose last date (epoch day 10000) is an IQR outlier. -/
def exDateCol : List Value :=
  [Value.vDate 0, Value.vDate 1, Value.vDate 2, Value.vDate 3, Value.vDate 10000]

/-- Current table of the spec's comparison example: ids 1, 2, 3. -/
def exCurrent3 : RTable :=
  ⟨["id"], [[Value.vInt 1], [Value.vInt 2], [Value.vInt 3]]⟩

/-- Previous table of the spec's comparison example: ids 2, 3, 4. -/
def exPrevious3 : RTable :=
  ⟨["id"], [[Value.vInt 2], [Value.vInt 3], [Value.vInt 4]]⟩

/-- A one-row current table. -/
def exCurrentOne : RTable := ⟨["id"], [[Value.vInt 1]]⟩

/-- A previous table with zero rows (retention denominator 0). -/
def exPreviousEmpty : RTable := ⟨["id"], []⟩

/-- A table whose schema lacks the `id` key column. -/
def exMissingCol : RTable := ⟨["name"], [[Value.vStr "x"]]⟩

/-- A table with a duplicated key tuple. -/
def exDupKeys : RTable := ⟨["id"], [[Value.vInt 1], [Value.vInt 1]]⟩

/-! ## Helper lemmas -/

theorem insertSorted_ne_nil (x : ℚ) (l : List ℚ) : insertSorted x l ≠ [] := by
  cases l with
  | nil => simp [insertSorted]
  | cons y ys => simp only [insertSorted]; split <;> simp

theorem sortAsc_ne_nil (xs : List ℚ) (h : xs ≠ []) : sortAsc xs ≠ [] := by
  cases xs with
  | nil => exact absurd rfl h
  | cons x l =>
    show insertSorted x (sortAsc l) ≠ []
    exact insertSorted_ne_nil x (sortAsc l)

theorem quantileNearest_nil (q : ℚ) : quantileNearest [] q = none := by
  unfold quantileNearest
  split
  · rfl
  · rfl

theorem quantileNearest_isSome (xs : List ℚ) (q : ℚ) (hxs : xs ≠ [])
    (h0 : 0 ≤ q) (h1 : q ≤ 1) : ∃ y, quantileNearest xs q = some y := by
  unfold quantileNearest
  rw [if_neg (by simp only [not_or, not_lt]; exact ⟨h0, h1⟩)]
  cases hs : sortAsc xs with
  | nil => exact absurd hs (sortAsc_ne_nil xs hxs)
  | cons a l => exact ⟨_, rfl⟩

/-! ## Claim theorems -/

/-- C1: with a zero-row previous table, the retention-rate computation of
`compare_datasets` divides by `total_records_previous = 0` with no guard, so
Python raises an uncaught `ZeroDivisionError`.  The comparison neither
surfaces an explicit error value/flag nor returns a silent 0 — it crashes,
contradicting the spec's required error handling (code bug). -/
theorem compare_zero_previous_raises :
    compareDatasets ["id"] exCurrentOne exPreviousEmpty =
      Except.error "ZeroDivisionError: division by zero" := by decide

/-- C5: the date round-trip inside `_detect_date_outliers` is not the
identity.  A `pl.Date` is cast to its epoch-day count, but `pl.from_epoch`
is called with its default unit of seconds, so a flagged date comes back as
the datetime that many *seconds* after the epoch: epoch day 10000
(1997-05-19) returns as `vDatetime 10000000000` µs = 10000 s ≈ 02:46:40 on
1970-01-01, a different value and a different instant than the original.
The code contradicts its own "Convert timestamps back to dates" comment and
the spec's bit-for-bit round-trip requirement (code bug). -/
theorem date_roundtrip_broken :
    detectDateOutliers 10 exDateCol =
      some [(Value.vDatetime 10000000000, "IQR", "above")] ∧
    Value.vDatetime 10000000000 ≠ Value.vDate 10000 ∧
    valueInstantUs (Value.vDatetime 10000000000) ≠
      valueInstantUs (Value.vDate 10000) := by decide

/-- C4 counterexample: in the column `["a", null]` with threshold 75 the code
stores percentage 50 for `"a"` (denominator 2 = all rows, null included) and
flags it, yet the claim's percentage `100·count/total_non_null` is 100, which
is not below 75 — so the claim's "if and only if" fails on the code. -/
theorem categorical_pct_counterexample :
    (Value.vStr "a", 1, (50 : ℚ)) ∈
      detectCategoricalOutliers 75 [Value.vStr "a", Value.vNull] ∧
    ¬ specNonNullPercentage [Value.vStr "a", Value.vNull] (Value.vStr "a") <
      75 := by decide

/-- C4 amended: a value (null included, as nulls form their own group) is
returned as a rare-category outlier iff its stored percentage, computed as
`100 × count / total number of rows of the column (nulls included)`, is
strictly below the rare-category threshold. -/
theorem categorical_outlier_iff (thr : ℚ) (col : List Value)
    (v : Value) (c : ℕ) (p : ℚ) :
    (v, c, p) ∈ detectCategoricalOutliers thr col ↔
      v ∈ col ∧ c = col.count v ∧
        p = (col.count v : ℚ) * 100 / (col.length : ℚ) ∧ p < thr := by
  unfold detectCategoricalOutliers
  rw [List.mem_filterMap]
  constructor
  · rintro ⟨a, ha, hf⟩
    rw [List.mem_dedup] at ha
    dsimp only at hf
    by_cases hlt : (List.count a col : ℚ) * 100 / (col.length : ℚ) < thr
    · rw [if_pos hlt] at hf
      obtain ⟨rfl, rfl, rfl⟩ : a = v ∧ List.count a col = c ∧
          (List.count a col : ℚ) * 100 / (col.length : ℚ) = p := by
        simpa using hf
      exact ⟨ha, rfl, rfl, hlt⟩
    · rw [if_neg hlt] at hf
      cases hf
  · rintro ⟨hv, rfl, rfl, hlt⟩
    refine ⟨v, List.mem_dedup.mpr hv, ?_⟩
    dsimp only
    rw [if_pos hlt]

/-- C8 counterexample: `detect_outliers` classifies the column
`[null, 1]` by its *first* cell, which is null, hence CATEGORICAL — and it
runs the rare-category analysis on it — although the first *non-null* value
is the integer 1, whose kind is NUMERIC as the claim requires. -/
theorem classification_first_cell_counterexample :
    firstNonNull [Value.vNull, Value.vInt 1] = some (Value.vInt 1) ∧
    valueKind (Value.vInt 1) = ColumnType.numeric ∧
    classifyFirstValue [Value.vNull, Value.vInt 1] =
      some ColumnType.categorical ∧
    processColumn 10 60 [Value.vNull, Value.vInt 1] =
      Except.ok [OutRow.cat Value.vNull 1 50, OutRow.cat (Value.vInt 1) 1 50] ∧
    ColumnType.categorical ≠ ColumnType.numeric := by decide

/-- C8 amended: the classification `detect_outliers` uses is determined by
the native kind of the *first* cell of the column in natural order, with a
null first cell classified CATEGORICAL; a zero-row column is skipped rather
than failing; an all-null column is classified CATEGORICAL with no error.
The separate helper `_determine_column_type` — which `detect_outliers` does
not call — classifies by the first non-null value and fails with the
empty-column error exactly when every value is null. -/
theorem classification_uses_first_cell (name : String) (col : List Value) :
    (col = [] → classifyFirstValue col = none) ∧
    (∀ v rest, col = v :: rest → classifyFirstValue col = some (valueKind v)) ∧
    (∀ v rest, col = v :: rest → v ≠ Value.vNull →
      determineColumnType name col = Except.ok (valueKind v)) ∧
    (col ≠ [] → (∀ u ∈ col, u = Value.vNull) →
      classifyFirstValue col = some ColumnType.categorical ∧
      determineColumnType name col =
        Except.error s!"Column {name} is empty") := by
  refine ⟨?_, ?_, ?_, ?_⟩
  · rintro rfl; rfl
  · rintro v rest rfl; rfl
  · rintro v rest rfl hv
    unfold determineColumnType firstNonNull
    rw [List.find?_cons_of_pos _ (by simpa using hv)]
  · intro hne hall
    have h1 : firstNonNull col = none := by
      unfold firstNonNull
      rw [List.find?_eq_none]
      intro x hx
      simpa using hall x hx
    constructor
    · cases col with
      | nil => exact absurd rfl hne
      | cons u us =>
        have hu : u = Value.vNull := hall u (by simp)
        subst hu
        rfl
    · unfold determineColumnType
      rw [h1]

/-- C8 witness: the amended classification rules applied to the concrete
columns `[1, "x"]` (numeric first cell) and `[null, null]` (all null). -/
theorem classification_uses_first_cell_witness :
    classifyFirstValue [Value.vInt 1, Value.vStr "x"] =
      some ColumnType.numeric ∧
    determineColumnType "amount" [Value.vInt 1, Value.vStr "x"] =
      Except.ok ColumnType.numeric ∧
    classifyFirstValue [Value.vNull, Value.vNull] =
      some ColumnType.categorical ∧
    determineColumnType "amount" [Value.vNull, Value.vNull] =
      Except.error "Column amount is empty" := by
  have h1 := classification_uses_first_cell "amount"
    [Value.vInt 1, Value.vStr "x"]
  have h2 := classification_uses_first_cell "amount"
    [Value.vNull, Value.vNull]
  refine ⟨h1.2.1 _ _ rfl, h1.2.2.1 _ _ rfl (by decide), ?_, ?_⟩
  · exact (h2.2.2.2 (by decide) (by decide)).1
  · exact ((h2.2.2.2 (by decide) (by decide)).2).trans (by decide)

/-- C2: whenever numeric detection runs to completion with Q1 and Q3 the
25th/75th percentiles the code computes, a row is returned as an outlier iff
its value `x` is strictly outside `[Q1 − 1.5·IQR, Q3 + 1.5·IQR]` (nulls are
never returned, as the comparison filters them out), it carries method
`"IQR"`, and its direction is `"above"` when `x` exceeds the upper bound and
`"below"` otherwise. -/
theorem numeric_outlier_iff (pt q1 q3 : ℚ) (col : List Value)
    (outs : List (Value × String × String))
    (hq1 : quantileNearest (numsOf col) (1/4) = some q1)
    (hq3 : quantileNearest (numsOf col) (3/4) = some q3)
    (houts : detectNumericOutliers pt col = some outs)
    (v : Value) (m d : String) :
    (v, m, d) ∈ outs ↔
      v ∈ col ∧ m = "IQR" ∧ ∃ x, numVal v = some x ∧
        (x > q3 + 1.5 * (q3 - q1) ∨ x < q1 - 1.5 * (q3 - q1)) ∧
        d = if x > q3 + 1.5 * (q3 - q1) then "above" else "below" := by
  unfold detectNumericOutliers at houts
  rcases hu : quantileNearest (numsOf col) (1 - pt / 100) with _ | u
  · rw [hu] at houts; cases houts
  rcases hl : quantileNearest (numsOf col) (pt / 100) with _ | l
  · rw [hu, hl] at houts; cases houts
  rw [hu, hl, hq3, hq1] at houts
  simp only [Option.some.injEq] at houts
  subst houts
  rw [List.mem_filterMap]
  constructor
  · rintro ⟨a, ha, hf⟩
    rcases hx : numVal a with _ | x
    · rw [hx] at hf; cases hf
    rw [hx] at hf
    dsimp only at hf
    by_cases hcond : x > q3 + 1.5 * (q3 - q1) ∨ x < q1 - 1.5 * (q3 - q1)
    · rw [if_pos hcond] at hf
      obtain ⟨rfl, rfl, rfl⟩ : a = v ∧ "IQR" = m ∧
          (if x > q3 + 1.5 * (q3 - q1) then "above" else "below") = d := by
        simpa using hf
      exact ⟨ha, rfl, x, hx, hcond, rfl⟩
    · rw [if_neg hcond] at hf; cases hf
  · rintro ⟨hv, rfl, x, hx, hcond, rfl⟩
    refine ⟨v, hv, ?_⟩
    dsimp only
    rw [hx]
    dsimp only
    rw [if_pos hcond]

/-- C2 witness: on the column `[1, 2, 3, 100]` (Q1 = 2, Q3 = 3, bounds
`[0.5, 4.5]`) the value 100 is returned, with method `"IQR"` and direction
`"above"`. -/
theorem numeric_outlier_iff_witness :
    (Value.vInt 100, "IQR", "above") ∈
        [((Value.vInt 100 : Value), ("IQR" : String), ("above" : String))] ↔
      Value.vInt 100 ∈ exNumCol ∧ ("IQR" : String) = "IQR" ∧
        ∃ x, numVal (Value.vInt 100) = some x ∧
          (x > 3 + 1.5 * (3 - 2) ∨ x < 2 - 1.5 * (3 - 2)) ∧
          ("above" : String) =
            if x > 3 + 1.5 * (3 - 2) then "above" else "below" :=
  numeric_outlier_iff 10 2 3 exNumCol
    [(Value.vInt 100, "IQR", "above")] (by decide) (by decide) (by decide)
    (Value.vInt 100) "IQR" "above"

/-- C6: two configurations that differ only in `percentile_threshold` (both
within the percentile range 0–100) produce identical numeric outlier
results on every column: the percentile boundary values are computed but
never used by the IQR-based flagging decision. -/
theorem percentile_threshold_no_influence (pt1 pt2 : ℚ)
    (h1a : 0 ≤ pt1) (h1b : pt1 ≤ 100) (h2a : 0 ≤ pt2) (h2b : pt2 ≤ 100)
    (col : List Value) :
    detectNumericOutliers pt1 col = detectNumericOutliers pt2 col := by
  have hb : ∀ p : ℚ, 0 ≤ p → p ≤ 100 → 0 ≤ p / 100 ∧ p / 100 ≤ 1 := by
    intro p hp0 hp1
    constructor
    · positivity
    · rw [div_le_one (by norm_num : (0:ℚ) < 100)]; exact hp1
  by_cases hn : numsOf col = []
  · unfold detectNumericOutliers
    rw [hn]
    simp [quantileNearest_nil]
  · obtain ⟨hd1a, hd1b⟩ := hb pt1 h1a h1b
    obtain ⟨hd2a, hd2b⟩ := hb pt2 h2a h2b
    obtain ⟨u1, hu1⟩ := quantileNearest_isSome (numsOf col) (1 - pt1 / 100) hn
      (by linarith) (by linarith)
    obtain ⟨l1, hl1⟩ := quantileNearest_isSome (numsOf col) (pt1 / 100) hn
      hd1a hd1b
    obtain ⟨u2, hu2⟩ := quantileNearest_isSome (numsOf col) (1 - pt2 / 100) hn
      (by linarith) (by linarith)
    obtain ⟨l2, hl2⟩ := quantileNearest_isSome (numsOf col) (pt2 / 100) hn
      hd2a hd2b
    unfold detectNumericOutliers
    rw [hu1, hl1, hu2, hl2]
    cases quantileNearest (numsOf col) (3/4) <;>
      cases quantileNearest (numsOf col) (1/4) <;> rfl

/-- C6 witness: thresholds 10 and 40 flag the same outliers on `[1,2,3,100]`. -/
theorem percentile_threshold_no_influence_witness :
    detectNumericOutliers 10 exNumCol = detectNumericOutliers 40 exNumCol :=
  percentile_threshold_no_influence 10 40 (by norm_num) (by norm_num)
    (by norm_num) (by norm_num) exNumCol

/-- C9: whole-table detection is fault-isolated.  (i) A zero-row table (every
column empty) yields the empty result mapping, not an error.  (ii) A column
appears in the result exactly when its own processing succeeded with a
non-empty outlier list — membership never depends on other columns.  (iii)
Deleting a column whose processing raises leaves the result of the scan over
the remaining columns unchanged: one bad column never aborts the table scan. -/
theorem detect_outliers_fault_isolation (pt rct : ℚ)
    (t : List (String × List Value)) :
    ((∀ c ∈ t, c.2 = ([] : List Value)) → detectOutliers pt rct t = []) ∧
    (∀ name outs, (name, outs) ∈ detectOutliers pt rct t ↔
      ∃ col, (name, col) ∈ t ∧ processColumn pt rct col = Except.ok outs ∧
        outs ≠ []) ∧
    (∀ t1 t2 name col e, processColumn pt rct col = Except.error e →
      detectOutliers pt rct (t1 ++ (name, col) :: t2) =
        detectOutliers pt rct (t1 ++ t2)) := by
  refine ⟨?_, ?_, ?_⟩
  · intro h
    unfold detectOutliers
    rw [List.filterMap_eq_nil_iff]
    intro c hc
    rw [h c hc]
    rfl
  · intro name outs
    unfold detectOutliers
    rw [List.mem_filterMap]
    constructor
    · rintro ⟨c, hc, hf⟩
      rcases hp : processColumn pt rct c.2 with e | l
      · rw [hp] at hf; cases hf
      rw [hp] at hf
      cases l with
      | nil => cases hf
      | cons o os =>
        obtain ⟨h1, h2⟩ : c.1 = name ∧ o :: os = outs := by simpa using hf
        refine ⟨c.2, ?_, ?_, ?_⟩
        · rw [← h1]
          exact hc
        · rw [hp, h2]
        · rw [← h2]; simp
    · rintro ⟨col, hmem, hok, hne⟩
      refine ⟨(name, col), hmem, ?_⟩
      rcases outs with _ | ⟨o, os⟩
      · exact absurd rfl hne
      · dsimp only
        rw [hok]
  · intro t1 t2 name col e hp
    unfold detectOutliers
    rw [List.filterMap_append, List.filterMap_append, List.filterMap_cons]
    dsimp only
    rw [hp]

/-- C9 witness: a table whose columns are all empty maps to the empty result;
dropping a column on which processing raises (threshold 150 makes the
quantile call raise) does not change the scan of the remaining columns, and
the surviving column's outliers are still produced. -/
theorem detect_outliers_fault_isolation_witness :
    detectOutliers 10 1 [("a", []), ("b", [])] = [] ∧
    detectOutliers 150 30
        ([("ok", [Value.vStr "a", Value.vStr "b", Value.vStr "b",
          Value.vStr "b"])] ++ ("bad", [Value.vInt 1]) :: []) =
      detectOutliers 150 30
        ([("ok", [Value.vStr "a", Value.vStr "b", Value.vStr "b",
          Value.vStr "b"])] ++ []) ∧
    detectOutliers 150 30
        [("ok", [Value.vStr "a", Value.vStr "b", Value.vStr "b",
          Value.vStr "b"])] =
      [("ok", [OutRow.cat (Value.vStr "a") 1 25])] := by
  refine ⟨(detect_outliers_fault_isolation 10 1 _).1 (by decide),
    (detect_outliers_fault_isolation 150 30 []).2.2 _ [] "bad"
      [Value.vInt 1] "numeric outlier detection raised" (by decide),
    by decide⟩

theorem validatePrimaryKeys_ok_true (pks : List String) (t : RTable)
    (label : String) (b : Bool)
    (h : validatePrimaryKeys pks t label = Except.ok b) : b = true := by
  unfold validatePrimaryKeys at h
  split_ifs at h
  cases h
  rfl

theorem nodup_of_countP_le_one {α : Type} [DecidableEq α] (l : List α)
    (h : ∀ a ∈ l, l.countP (fun b => decide (b = a)) ≤ 1) : l.Nodup := by
  induction l with
  | nil => exact List.nodup_nil
  | cons x xs ih =>
    rw [List.nodup_cons]
    constructor
    · intro hx
      have hc := h x (by simp)
      rw [List.countP_cons_of_pos _ _ (by simp)] at hc
      have hpos : 0 < xs.countP (fun b => decide (b = x)) :=
        List.countP_pos_iff.mpr ⟨x, hx, by simp⟩
      omega
    · apply ih
      intro a ha
      have := h a (by simp [ha])
      rw [List.countP_cons] at this
      omega

theorem validatePrimaryKeys_ok_nodup (pks : List String) (t : RTable)
    (label : String) (b : Bool)
    (h : validatePrimaryKeys pks t label = Except.ok b) :
    (keysOf pks t).Nodup := by
  unfold validatePrimaryKeys at h
  split_ifs at h with hm hd
  apply nodup_of_countP_le_one
  intro a ha
  by_contra hgt
  push_neg at hgt
  apply hd
  unfold hasDuplicateKeys
  rw [List.any_eq_true]
  exact ⟨a, ha, by simpa using hgt⟩

theorem length_filter_mem_card {α : Type} [DecidableEq α] (l1 l2 : List α)
    (h1 : l1.Nodup) :
    (l1.filter (fun a => decide (a ∈ l2))).length =
      (l1.toFinset ∩ l2.toFinset).card := by
  rw [← List.toFinset_card_of_nodup (h1.filter _)]
  congr 1
  rw [List.toFinset_filter]
  ext a
  simp

theorem length_sub_antijoin {α β : Type} [DecidableEq β] (rows : List α)
    (key : α → β) (other : List β) (hnd : (rows.map key).Nodup) :
    rows.length -
        (rows.filter (fun r => decide (key r ∉ other.dedup))).length =
      ((rows.map key).toFinset ∩ other.toFinset).card ∧
    (rows.filter (fun r => decide (key r ∉ other.dedup))).length ≤
      rows.length := by
  have hpart := List.length_eq_length_filter_add
    (l := rows) (fun r => decide (key r ∈ other.dedup))
  have hcongr : rows.filter (fun r => !(decide (key r ∈ other.dedup))) =
      rows.filter (fun r => decide (key r ∉ other.dedup)) :=
    List.filter_congr (fun x _ => by rw [decide_not])
  rw [hcongr] at hpart
  have hA : (rows.filter (fun r => decide (key r ∈ other.dedup))).length =
      ((rows.map key).toFinset ∩ other.toFinset).card := by
    have hfm : (rows.map key).filter (fun k => decide (k ∈ other.dedup)) =
        (rows.filter (fun r => decide (key r ∈ other.dedup))).map key :=
      List.filter_map key rows
    calc (rows.filter (fun r => decide (key r ∈ other.dedup))).length
        = ((rows.map key).filter
            (fun k => decide (k ∈ other.dedup))).length := by
          rw [hfm, List.length_map]
      _ = ((rows.map key).filter (fun k => decide (k ∈ other))).length := by
          apply congrArg
          exact List.filter_congr (fun x _ => by simp [List.mem_dedup])
      _ = ((rows.map key).toFinset ∩ other.toFinset).card :=
          length_filter_mem_card _ _ hnd
  constructor
  · omega
  · omega

theorem compareDatasets_ok_inv (pks : List String) (cur prev : RTable)
    (res : CompareResult) (h : compareDatasets pks cur prev = Except.ok res) :
    validatePrimaryKeys pks cur "current" = Except.ok true ∧
    validatePrimaryKeys pks prev "previous" = Except.ok true ∧
    prev.rows.length ≠ 0 ∧
    res.tableNew = tableNewOf pks cur prev ∧
    res.tableLapsed = tableLapsedOf pks cur prev ∧
    res.totalCurrent = cur.rows.length ∧
    res.totalPrevious = prev.rows.length ∧
    res.newCount = (tableNewOf pks cur prev).length ∧
    res.lapsedCount = (tableLapsedOf pks cur prev).length ∧
    res.retentionRate =
      ((cur.rows.length : ℚ) - ((tableNewOf pks cur prev).length : ℚ)) /
        (prev.rows.length : ℚ) * 100 := by
  unfold compareDatasets at h
  rcases hv1 : validatePrimaryKeys pks cur "current" with e | b1
  · rw [hv1] at h; dsimp only at h; cases h
  rw [hv1] at h
  dsimp only at h
  rcases hv2 : validatePrimaryKeys pks prev "previous" with e | b2
  · rw [hv2] at h; dsimp only at h; cases h
  rw [hv2] at h
  dsimp only at h
  rcases hd : pyDiv
      ((cur.rows.length : ℚ) - ((tableNewOf pks cur prev).length : ℚ))
      (prev.rows.length : ℚ) with e | ratio
  · rw [hd] at h; dsimp only at h; cases h
  rw [hd] at h
  dsimp only at h
  unfold pyDiv at hd
  split_ifs at hd with hz
  cases hd
  cases h
  have hb1 := validatePrimaryKeys_ok_true _ _ _ _ hv1
  have hb2 := validatePrimaryKeys_ok_true _ _ _ _ hv2
  subst hb1
  subst hb2
  refine ⟨rfl, rfl, ?_, rfl, rfl, rfl, rfl, rfl, rfl, rfl⟩
  intro hlen
  apply hz
  rw [hlen]
  norm_num

/-- C3: whenever `compare_datasets` succeeds, `table_new` is exactly the rows
of current whose key tuple is absent from previous's key set, `table_lapsed`
exactly the rows of previous whose key tuple is absent from current's key
set, the four counts are the corresponding row counts, and the retention
rate is `(total_current − new_count) / total_previous × 100`. -/
theorem compare_partitions (pks : List String) (cur prev : RTable)
    (res : CompareResult)
    (h : compareDatasets pks cur prev = Except.ok res) :
    res.tableNew = cur.rows.filter
      (fun r => decide (rowKey pks cur.schema r ∉ keysOf pks prev)) ∧
    res.tableLapsed = prev.rows.filter
      (fun r => decide (rowKey pks prev.schema r ∉ keysOf pks cur)) ∧
    res.totalCurrent = cur.rows.length ∧
    res.totalPrevious = prev.rows.length ∧
    res.newCount = res.tableNew.length ∧
    res.lapsedCount = res.tableLapsed.length ∧
    res.retentionRate = ((res.totalCurrent : ℚ) - (res.newCount : ℚ)) /
      (res.totalPrevious : ℚ) * 100 := by
  obtain ⟨hv1, hv2, hz, hN, hL, hTC, hTP, hNC, hLC, hR⟩ :=
    compareDatasets_ok_inv pks cur prev res h
  have hNew : res.tableNew = cur.rows.filter
      (fun r => decide (rowKey pks cur.schema r ∉ keysOf pks prev)) := by
    rw [hN]
    unfold tableNewOf
    exact List.filter_congr (fun r _ => by simp [List.mem_dedup])
  have hLap : res.tableLapsed = prev.rows.filter
      (fun r => decide (rowKey pks prev.schema r ∉ keysOf pks cur)) := by
    rw [hL]
    unfold tableLapsedOf
    exact List.filter_congr (fun r _ => by simp [List.mem_dedup])
  refine ⟨hNew, hLap, hTC, hTP, ?_, ?_, ?_⟩
  · rw [hNC, hN]
  · rw [hLC, hL]
  · rw [hR, hTC, hTP, hNC]

/-- C3 witness: the spec's concrete example — current ids {1,2,3} against
previous ids {2,3,4} gives new = {1}, lapsed = {4}, counts 3/3/1/1 and
retention rate (3−1)/3×100. -/
theorem compare_partitions_witness :
    ∃ res, compareDatasets ["id"] exCurrent3 exPrevious3 = Except.ok res ∧
      res.tableNew = [[Value.vInt 1]] ∧
      res.tableLapsed = [[Value.vInt 4]] ∧
      res.totalCurrent = 3 ∧ res.totalPrevious = 3 ∧
      res.newCount = 1 ∧ res.lapsedCount = 1 ∧
      res.retentionRate = (3 - 1) / 3 * 100 ∧
      res.tableNew = exCurrent3.rows.filter
        (fun r => decide (rowKey ["id"] exCurrent3.schema r ∉
          keysOf ["id"] exPrevious3)) := by
  have h : compareDatasets ["id"] exCurrent3 exPrevious3 =
      Except.ok ⟨[[Value.vInt 1]], [[Value.vInt 4]], 3, 3, 1, 1, 200/3⟩ := by
    decide
  obtain ⟨hNew, _, _, _, _, _, _⟩ := compare_partitions _ _ _ _ h
  exact ⟨_, h, by decide, by decide, by decide, by decide, by decide,
    by decide, by decide, hNew⟩

/-- C7: `validate_primary_keys` fails with the missing-key error listing
every absent key column when one is absent, fails with the duplicate-key
error naming the dataset label when a key tuple repeats, and returns `True`
otherwise; `compare_datasets` runs it on both tables before any diffing and
a failure on either side aborts the whole comparison with that error. -/
theorem validate_keys_gate (pks : List String) (t : RTable) (label : String)
    (cur prev : RTable) :
    (missingKeys pks t ≠ [] →
      validatePrimaryKeys pks t label =
        Except.error (missingKeysMsg (missingKeys pks t) label)) ∧
    (missingKeys pks t = [] → hasDuplicateKeys pks t = true →
      validatePrimaryKeys pks t label =
        Except.error (duplicateKeysMsg label)) ∧
    (missingKeys pks t = [] → hasDuplicateKeys pks t = false →
      validatePrimaryKeys pks t label = Except.ok true) ∧
    (∀ e, validatePrimaryKeys pks cur "current" = Except.error e →
      compareDatasets pks cur prev = Except.error e) ∧
    (∀ e b, validatePrimaryKeys pks cur "current" = Except.ok b →
      validatePrimaryKeys pks prev "previous" = Except.error e →
      compareDatasets pks cur prev = Except.error e) := by
  refine ⟨?_, ?_, ?_, ?_, ?_⟩
  · intro hm
    unfold validatePrimaryKeys
    rw [if_pos hm]
  · intro hm hd
    unfold validatePrimaryKeys
    rw [if_neg (by simp [hm]), if_pos hd]
  · intro hm hd
    unfold validatePrimaryKeys
    rw [if_neg (by simp [hm]), if_neg (by simp [hd])]
  · intro e he
    unfold compareDatasets
    rw [he]
  · intro e b hok he
    unfold compareDatasets
    rw [hok]
    dsimp only
    rw [he]

/-- C7 witness: the gate evaluated on concrete tables — a missing `id`
column, a duplicated key, a clean table, and comparisons aborted by either
side's validation failure. -/
theorem validate_keys_gate_witness :
    validatePrimaryKeys ["id"] exMissingCol "current" =
      Except.error (missingKeysMsg ["id"] "current") ∧
    validatePrimaryKeys ["id"] exDupKeys "previous" =
      Except.error (duplicateKeysMsg "previous") ∧
    validatePrimaryKeys ["id"] exCurrent3 "current" = Except.ok true ∧
    compareDatasets ["id"] exMissingCol exPrevious3 =
      Except.error (missingKeysMsg ["id"] "current") ∧
    compareDatasets ["id"] exCurrent3 exDupKeys =
      Except.error (duplicateKeysMsg "previous") := by
  have h1 := validate_keys_gate ["id"] exMissingCol "current"
    exMissingCol exPrevious3
  have h2 := validate_keys_gate ["id"] exDupKeys "previous"
    exCurrent3 exDupKeys
  have h3 := validate_keys_gate ["id"] exCurrent3 "current"
    exCurrent3 exDupKeys
  exact ⟨(h1.1 (by decide)).trans (by decide),
    h2.2.1 (by decide) (by decide),
    h3.2.2.1 (by decide) (by decide),
    h1.2.2.2.1 (missingKeysMsg ["id"] "current") (by decide),
    h3.2.2.2.2 (duplicateKeysMsg "previous") true (by decide) (by decide)⟩

/-- C10: for any pair of tables on which `compare_datasets` succeeds (so both
passed primary-key validation and key tuples are unique within each table),
`total_current − new_count = total_previous − lapsed_count`, both sides being
the number of matched key tuples (the intersection of the two key sets), with
`new_count ≤ total_current` and `lapsed_count ≤ total_previous`. -/
theorem comparison_stats_invariant (pks : List String) (cur prev : RTable)
    (res : CompareResult)
    (h : compareDatasets pks cur prev = Except.ok res) :
    res.newCount ≤ res.totalCurrent ∧
    res.lapsedCount ≤ res.totalPrevious ∧
    res.totalCurrent - res.newCount =
      ((keysOf pks cur).toFinset ∩ (keysOf pks prev).toFinset).card ∧
    res.totalPrevious - res.lapsedCount =
      ((keysOf pks cur).toFinset ∩ (keysOf pks prev).toFinset).card ∧
    res.totalCurrent - res.newCount = res.totalPrevious - res.lapsedCount := by
  obtain ⟨hv1, hv2, hz, hN, hL, hTC, hTP, hNC, hLC, hR⟩ :=
    compareDatasets_ok_inv pks cur prev res h
  have nd1 : (cur.rows.map (rowKey pks cur.schema)).Nodup :=
    validatePrimaryKeys_ok_nodup _ _ _ _ hv1
  have nd2 : (prev.rows.map (rowKey pks prev.schema)).Nodup :=
    validatePrimaryKeys_ok_nodup _ _ _ _ hv2
  have hcur := length_sub_antijoin cur.rows (rowKey pks cur.schema)
    (keysOf pks prev) nd1
  have hprev := length_sub_antijoin prev.rows (rowKey pks prev.schema)
    (keysOf pks cur) nd2
  have hNlen : res.newCount = (tableNewOf pks cur prev).length := hNC
  have hLlen : res.lapsedCount = (tableLapsedOf pks cur prev).length := hLC
  have hcard1 : res.totalCurrent - res.newCount =
      ((keysOf pks cur).toFinset ∩ (keysOf pks prev).toFinset).card := by
    rw [hTC, hNlen]
    simpa [tableNewOf, keysOf] using hcur.1
  have hcard2 : res.totalPrevious - res.lapsedCount =
      ((keysOf pks cur).toFinset ∩ (keysOf pks prev).toFinset).card := by
    rw [hTP, hLlen]
    rw [Finset.inter_comm]
    simpa [tableLapsedOf, keysOf] using hprev.1
  refine ⟨?_, ?_, hcard1, hcard2, hcard1.trans hcard2.symm⟩
  · rw [hTC, hNlen]
    simpa [tableNewOf, keysOf] using hcur.2
  · rw [hTP, hLlen]
    simpa [tableLapsedOf, keysOf] using hprev.2

/-- C10 witness: the invariant on the concrete example tables — new = 1,
lapsed = 1, both differences equal the two matched keys {2, 3}. -/
theorem comparison_stats_invariant_witness :
    ∃ res, compareDatasets ["id"] exCurrent3 exPrevious3 = Except.ok res ∧
      (res.newCount ≤ res.totalCurrent ∧
      res.lapsedCount ≤ res.totalPrevious ∧
      res.totalCurrent - res.newCount =
        ((keysOf ["id"] exCurrent3).toFinset ∩
          (keysOf ["id"] exPrevious3).toFinset).card ∧
      res.totalPrevious - res.lapsedCount =
        ((keysOf ["id"] exCurrent3).toFinset ∩
          (keysOf ["id"] exPrevious3).toFinset).card ∧
      res.totalCurrent - res.newCount =
        res.totalPrevious - res.lapsedCount) := by
  have h : compareDatasets ["id"] exCurrent3 exPrevious3 =
      Except.ok ⟨[[Value.vInt 1]], [[Value.vInt 4]], 3, 3, 1, 1, 200/3⟩ := by
    decide
  exact ⟨_, h, comparison_stats_invariant _ _ _ _ h⟩

end DataStep
